import Mathlib

/-
  Shallow embedding of the vedro test-orchestration core.

  Sources embedded:
  - vedro/core/_scenario_result.py   (ScenarioStatus, ScenarioResult, AggregatedResult)
  - vedro/core/_report.py            (Report)
  - vedro/_core/_runner.py           (Runner.run_step / run_scenario / run)
  - vedro/commands/run_command/_run_command.py (plugin-config validation)
  - vedro/core/_scenario_scheduler/_scenario_scheduler.py (abstract scheduler;
    the concrete MonotonicScenarioScheduler is modelled from the spec, see below)

  Python floats (timestamps) are modelled as rationals; Python truthiness of a
  float value (0.0 is falsy) is modelled explicitly where the source relies on
  it.  Fallible code (assert / raise) returns Except; the mutable state used by
  the runner (the wall clock and the stream of fired events) is passed
  explicitly through a RunState value.
-/

namespace Vedro

/-- Timestamps (Python floats returned by time()) are modelled as rationals. -/
abbrev Timestamp := ℚ

/-- Python truthiness of an optional float: None and 0.0 are falsy. -/
def truthyTime : Option Timestamp → Bool
  | none => false
  | some t => t != 0

/-- ScenarioStatus enum from vedro/core/_scenario_result.py. -/
inductive ScenarioStatus where
  | pending
  | passed
  | failed
  | skipped
  deriving DecidableEq, Repr

/-- StepStatus enum (PENDING / PASSED / FAILED). -/
inductive StepStatus where
  | pending
  | passed
  | failed
  deriving DecidableEq, Repr

/-- An exception value raised by user scenario code; only its type identity
matters to the runner (membership in the interrupt set), so an exception is a
tagged value. -/
structure Exc where
  type : ℕ
  deriving DecidableEq, Repr

/-- ExcInfo from vedro: the (type, value) pair captured via sys.exc_info()
(the traceback is irrelevant to the control flow and is omitted). -/
structure ExcInfo where
  type : ℕ
  value : Exc
  deriving DecidableEq, Repr

/-- Scope: the final __dict__ of an executed scenario instance, an opaque
mapping used only for diagnostics. -/
abbrev Scope := List (String × ℕ)

/-- Artifacts attached by plugins are opaque blobs. -/
abbrev Artifact := ℕ

deriving instance DecidableEq for Except

/-- Modelled from the spec: the VirtualStep source file is not among the
provided sources (only its callers are).  A named callable unit with an
explicit suspension flag; its body either returns or raises an exception.
The coroutine flag only selects between awaited and plain invocation in the
runner, which is unobservable here. -/
structure VirtualStep where
  name : String
  is_coro : Bool
  body : Except Exc Unit
  deriving DecidableEq, Repr

/-- Modelled from the spec: the VirtualScenario source file is not among the
provided sources (only its callers are).  Stable identity, skip flag, ordered
steps, and the field snapshot its instantiation produces (ref.__dict__). -/
structure VirtualScenario where
  unique_id : ℕ
  skipped : Bool
  steps : List VirtualStep
  scope : Scope
  deriving DecidableEq, Repr

/-- Modelled from the spec: the StepResult source file is not among the
provided sources (only its callers are).  Status in pending/passed/failed,
start and end timestamps, and the captured exception, with the same
unguarded mark and set operations the in-source ScenarioResult has. -/
structure StepResult where
  step : VirtualStep
  status : StepStatus
  started_at : Option Timestamp
  ended_at : Option Timestamp
  exc_info : Option ExcInfo
  deriving DecidableEq, Repr

/-- StepResult(step): fresh result in PENDING status. -/
def StepResult.init (step : VirtualStep) : StepResult :=
  ⟨step, .pending, none, none, none⟩

def StepResult.set_started_at (r : StepResult) (t : Timestamp) : StepResult :=
  { r with started_at := some t }

def StepResult.set_ended_at (r : StepResult) (t : Timestamp) : StepResult :=
  { r with ended_at := some t }

def StepResult.set_exc_info (r : StepResult) (e : ExcInfo) : StepResult :=
  { r with exc_info := some e }

def StepResult.mark_passed (r : StepResult) : StepResult :=
  { r with status := .passed }

def StepResult.mark_failed (r : StepResult) : StepResult :=
  { r with status := .failed }

def StepResult.is_failed (r : StepResult) : Bool :=
  r.status == .failed

def StepResult.is_passed (r : StepResult) : Bool :=
  r.status == .passed

/-- ScenarioResult from vedro/core/_scenario_result.py.  The private _scope
field is scopeOpt here; the scope property (returning an empty dict for None)
is the function ScenarioResult.scope below. -/
structure ScenarioResult where
  scenario : VirtualScenario
  status : ScenarioStatus
  started_at : Option Timestamp
  ended_at : Option Timestamp
  step_results : List StepResult
  scopeOpt : Option Scope
  artifacts : List Artifact
  deriving DecidableEq, Repr

/-- ScenarioResult(scenario): fresh result in PENDING status. -/
def ScenarioResult.init (scenario : VirtualScenario) : ScenarioResult :=
  ⟨scenario, .pending, none, none, [], none, []⟩

def ScenarioResult.mark_passed (r : ScenarioResult) : ScenarioResult :=
  { r with status := .passed }

def ScenarioResult.mark_failed (r : ScenarioResult) : ScenarioResult :=
  { r with status := .failed }

def ScenarioResult.mark_skipped (r : ScenarioResult) : ScenarioResult :=
  { r with status := .skipped }

def ScenarioResult.is_passed (r : ScenarioResult) : Bool :=
  r.status == .passed

def ScenarioResult.is_failed (r : ScenarioResult) : Bool :=
  r.status == .failed

def ScenarioResult.is_skipped (r : ScenarioResult) : Bool :=
  r.status == .skipped

def ScenarioResult.set_started_at (r : ScenarioResult) (t : Timestamp) : ScenarioResult :=
  { r with started_at := some t }

def ScenarioResult.set_ended_at (r : ScenarioResult) (t : Timestamp) : ScenarioResult :=
  { r with ended_at := some t }

/-- elapsed property: 0.0 unless both timestamps are set. -/
def ScenarioResult.elapsed (r : ScenarioResult) : Timestamp :=
  match r.started_at, r.ended_at with
  | some s, some e => e - s
  | _, _ => 0

def ScenarioResult.add_step_result (r : ScenarioResult) (sr : StepResult) : ScenarioResult :=
  { r with step_results := r.step_results ++ [sr] }

def ScenarioResult.set_scope (r : ScenarioResult) (scope : Scope) : ScenarioResult :=
  { r with scopeOpt := some scope }

/-- scope property: an empty mapping when no scope was set. -/
def ScenarioResult.scope (r : ScenarioResult) : Scope :=
  r.scopeOpt.getD []

def ScenarioResult.attach (r : ScenarioResult) (a : Artifact) : ScenarioResult :=
  { r with artifacts := r.artifacts ++ [a] }

/-- AggregatedResult extends ScenarioResult with the list of underlying
per-execution results. -/
structure AggregatedResult extends ScenarioResult where
  scenario_results : List ScenarioResult
  deriving DecidableEq, Repr

/-- AggregatedResult.from_existing: copies status, timestamps, scope, step
results and artifacts from the main (resolution) result, then asserts the
underlying result list is non-empty before adopting it.  The Python assert is
modelled as the error branch of Except. -/
def AggregatedResult.from_existing (main : ScenarioResult)
    (scenario_results : List ScenarioResult) : Except String AggregatedResult :=
  let result := ScenarioResult.init main.scenario
  let result :=
    if main.is_passed then result.mark_passed
    else if main.is_failed then result.mark_failed
    else if main.is_skipped then result.mark_skipped
    else result
  let result :=
    match main.started_at with
    | some t => result.set_started_at t
    | none => result
  let result :=
    match main.ended_at with
    | some t => result.set_ended_at t
    | none => result
  let result := result.set_scope main.scope
  let result := main.step_results.foldl ScenarioResult.add_step_result result
  let result := main.artifacts.foldl ScenarioResult.attach result
  if scenario_results.length > 0 then
    .ok { toScenarioResult := result, scenario_results := scenario_results }
  else
    .error "assert len(scenario_results) > 0"

/-- Report from vedro/core/_report.py (the summary list is carried along but
is irrelevant to the claims). -/
structure Report where
  summary : List String
  started_at : Option Timestamp
  ended_at : Option Timestamp
  total : ℕ
  passed : ℕ
  failed : ℕ
  skipped : ℕ
  deriving DecidableEq, Repr

/-- Report(): all counters zero, no timestamps. -/
def Report.init : Report :=
  ⟨[], none, none, 0, 0, 0, 0⟩

/-- Report.add_result.  Note the source guards the timestamp updates with
Python truthiness (if result.started_at:), so a timestamp equal to 0.0 is
ignored, not only a missing one. -/
def Report.add_result (report : Report) (result : ScenarioResult) : Report :=
  let report := { report with total := report.total + 1 }
  let report :=
    if result.is_passed then { report with passed := report.passed + 1 }
    else if result.is_failed then { report with failed := report.failed + 1 }
    else if result.is_skipped then { report with skipped := report.skipped + 1 }
    else report
  let report :=
    match result.started_at with
    | some t =>
      if t ≠ 0 then
        match report.started_at with
        | none => { report with started_at := some t }
        | some cur => { report with started_at := some (min cur t) }
      else report
    | none => report
  match result.ended_at with
  | some t =>
    if t ≠ 0 then
      match report.ended_at with
      | none => { report with ended_at := some t }
      | some cur => { report with ended_at := some (max cur t) }
    else report
  | none => report

/-- elapsed property of Report: 0.0 unless both endpoints are known. -/
def Report.elapsed (report : Report) : Timestamp :=
  match report.ended_at, report.started_at with
  | some e, some s => e - s
  | _, _ => 0

/-- Adding a whole run of results to a fresh report. -/
def addAllResults (rs : List ScenarioResult) : Report :=
  rs.foldl Report.add_result Report.init

/-- A scenario result returned by aggregation: either a single execution
passed through unchanged, or several executions wrapped in an
AggregatedResult (in the Python source both are values of the ScenarioResult
base type). -/
inductive AggOutcome where
  | single (r : ScenarioResult)
  | aggregated (a : AggregatedResult)
  deriving DecidableEq, Repr

/-- Modelled from the spec: the concrete MonotonicScenarioScheduler (and with
it the body of aggregate_results) is not among the provided sources, only the
abstract ScenarioScheduler with its abstract aggregate_results is.  The spec
says: aggregating an empty result list is a programming error that must fail
fast; a single execution is returned unchanged; multiple executions are
wrapped in an AggregatedResult whose resolution prefers a passing result only
if passing results strictly outnumber failing ones, else the last failing
result.  The spec leaves the case with neither a winning passing result nor
any failing result (e.g. all results still pending) undefined; the model
fails fast there. -/
def MonotonicScenarioScheduler.aggregate_results (scenario_results : List ScenarioResult) :
    Except String AggOutcome :=
  match scenario_results with
  | [] => .error "assert len(scenario_results) > 0"
  | [r] => .ok (.single r)
  | _ :: _ :: _ =>
    let passed := scenario_results.filter (fun r => r.is_passed)
    let failed := scenario_results.filter (fun r => r.is_failed)
    let resolution :=
      if passed.length > failed.length then passed.getLast? else failed.getLast?
    match resolution with
    | some main => (AggregatedResult.from_existing main scenario_results).map .aggregated
    | none => .error "no resolution result"

/-- PluginConfig descriptor from vedro/core/_plugin.py as used by the run
command: an identity, the enabled flag and the declared dependencies
(references to other configured descriptors by identity).  The two structural
facts that Python checks at runtime with isclass/issubclass are carried as
boolean fields: plugin_ok (the plugin attribute is a real Plugin subclass,
not the abstract base) and attrs_ok (the descriptor declares no attributes
unknown to its base configuration type). -/
structure PluginConfig where
  pid : ℕ
  enabled : Bool
  depends_on : List ℕ
  plugin_ok : Bool
  attrs_ok : Bool
  deriving DecidableEq, Repr

/-- The dependency loop of RunCommand._validate_plugin_config: each declared
dependency must be found among the configured plugins and, if the depending
plugin is enabled, must itself be enabled. -/
def checkDeps (cfg : PluginConfig) (available : List PluginConfig) :
    List ℕ → Except String Unit
  | [] => .ok ()
  | dep :: rest =>
    match available.find? (fun p => p.pid == dep) with
    | none => .error "dependency is not found among the configured plugins"
    | some depCfg =>
      if cfg.enabled && !depCfg.enabled then .error "dependency is not enabled"
      else checkDeps cfg available rest

/-- RunCommand._validate_plugin_config: structural checks, then the
dependency checks, then (in strict mode) the unknown-attribute check.  The
isinstance(depends_on, Sequence) check of the source is enforced by the model
type itself. -/
def RunCommand.validate_plugin_config (cfg : PluginConfig) (available : List PluginConfig)
    (validate_attrs : Bool) : Except String Unit :=
  if !cfg.plugin_ok then
    .error "attribute plugin must be a subclass of vedro.core.Plugin"
  else
    match checkDeps cfg available cfg.depends_on with
    | .error e => .error e
    | .ok _ =>
      if validate_attrs && !cfg.attrs_ok then
        .error "configuration contains unknown attributes"
      else .ok ()

/-- The loop of RunCommand._get_ordered_plugins: validate every configured
descriptor (aborting on the first violation) and collect the enabled ones. -/
def collectEnabled (available : List PluginConfig) (validate_attrs : Bool) :
    List PluginConfig → Except String (List PluginConfig)
  | [] => .ok []
  | cfg :: rest =>
    match RunCommand.validate_plugin_config cfg available validate_attrs with
    | .error e => .error e
    | .ok _ =>
      match collectEnabled available validate_attrs rest with
      | .error e => .error e
      | .ok tail => .ok (if cfg.enabled then cfg :: tail else tail)

/-- RunCommand._get_ordered_plugins: every configured plugin is validated
against the full configured set before any plugin is activated; the returned
list holds the enabled descriptors in declaration order (the source's
_order_plugins is the identity).  RunCommand._register_plugins instantiates
plugins only from an ok result, so an error here means no plugin was
activated. -/
def RunCommand.get_ordered_plugins (configs : List PluginConfig) (validate_attrs : Bool) :
    Except String (List PluginConfig) :=
  collectEnabled configs validate_attrs configs

/-- Modelled from the spec: the Dispatcher (event bus) source file is not
among the provided sources (only its re-export in the package __init__ and
its callers are).  Per the spec, a subscriber registers (eventType, handler)
pairs in order; fire(event) invokes every handler registered for the exact
event type, in registration order, awaiting each to completion before the
next starts, and a later event is never fired until all handlers of the
previous one completed.  A handler is modelled as a registered unit with an
identity and a body of atomic actions; executing it produces a started entry,
its actions, then a completed entry in a global trace. -/
structure Handler where
  event_type : ℕ
  hid : ℕ
  body : List ℕ
  deriving DecidableEq, Repr

/-- One entry of the execution trace of the event bus. -/
inductive TraceEntry where
  | started (hid : ℕ)
  | acted (hid : ℕ) (action : ℕ)
  | completed (hid : ℕ)
  deriving DecidableEq, Repr

/-- Awaiting one handler to completion: its trace runs from its started entry
to its completed entry with nothing interleaved. -/
def runHandler (h : Handler) : List TraceEntry :=
  TraceEntry.started h.hid :: (h.body.map (TraceEntry.acted h.hid) ++ [TraceEntry.completed h.hid])

/-- The handlers registered for an exact event type, in registration order. -/
def handlersFor (d : List Handler) (t : ℕ) : List Handler :=
  d.filter (fun h => h.event_type == t)

/-- Modelled from the spec: fire(event) runs exactly the handlers registered
for the exact event type, sequentially in registration order. -/
def Dispatcher.fire (d : List Handler) (t : ℕ) : List TraceEntry :=
  ((handlersFor d t).map runHandler).flatten

/-- Firing a sequence of events one after the other. -/
def Dispatcher.fireAll (d : List Handler) (ts : List ℕ) : List TraceEntry :=
  (ts.map (Dispatcher.fire d)).flatten

/-- The lifecycle events fired by the Runner, carrying a snapshot of the
result object at fire time. -/
inductive REvent where
  | stepRun (sr : StepResult)
  | stepFail (sr : StepResult)
  | stepPass (sr : StepResult)
  | scenarioRun (r : ScenarioResult)
  | scenarioSkip (r : ScenarioResult)
  | scenarioPass (r : ScenarioResult)
  | scenarioFail (r : ScenarioResult)
  deriving DecidableEq, Repr

/-- The explicit state threaded through the runner: the wall clock (time()
is modelled as reading the clock and advancing it) and the ordered stream of
events fired on the dispatcher so far. -/
structure RunState where
  clock : Timestamp
  events : List REvent
  deriving DecidableEq, Repr

/-- time(): read the clock; successive calls yield strictly increasing values. -/
def tick (s : RunState) : Timestamp × RunState :=
  (s.clock, { s with clock := s.clock + 1 })

/-- dispatcher.fire(event) as seen from the runner: append the event to the
stream. -/
def fireEvent (s : RunState) (e : REvent) : RunState :=
  { s with events := s.events ++ [e] }

/-- Runner from vedro/_core/_runner.py: a dispatcher (modelled by the event
stream in RunState) and the statically configured interrupt exception types. -/
structure Runner where
  interrupt_exceptions : List ℕ
  deriving DecidableEq, Repr

/-- Runner.run_step.  The returned Option Exc is the exception propagating
out of the call: some e exactly when the step raised an interrupt-class
exception and run_step re-raised it after firing the step-failed event. -/
def Runner.run_step (runner : Runner) (step : VirtualStep) (s : RunState) :
    (StepResult × Option Exc) × RunState :=
  let step_result := StepResult.init step
  let s := fireEvent s (.stepRun step_result)
  let (t₁, s) := tick s
  let step_result := step_result.set_started_at t₁
  match step.body with
  | .error e =>
    let (t₂, s) := tick s
    let step_result := step_result.set_ended_at t₂
    let exc_info : ExcInfo := ⟨e.type, e⟩
    let step_result := step_result.set_exc_info exc_info
    let step_result := step_result.mark_failed
    let s := fireEvent s (.stepFail step_result)
    if exc_info.type ∈ runner.interrupt_exceptions then ((step_result, some e), s)
    else ((step_result, none), s)
  | .ok _ =>
    let (t₂, s) := tick s
    let step_result := (step_result.set_ended_at t₂).mark_passed
    let s := fireEvent s (.stepPass step_result)
    ((step_result, none), s)

/-- The step loop of Runner.run_scenario: run each step in declared order,
append its result, and stop at the first failing step (firing the
scenario-failed event); an exception propagating out of run_step aborts the
loop before the step result is appended. -/
def Runner.runStepsLoop (runner : Runner) (steps : List VirtualStep)
    (scenario_result : ScenarioResult) (s : RunState) :
    (ScenarioResult × Option Exc) × RunState :=
  match steps with
  | [] => ((scenario_result, none), s)
  | step :: rest =>
    match runner.run_step step s with
    | ((_, some e), s) => ((scenario_result, some e), s)
    | ((step_result, none), s) =>
      let scenario_result := scenario_result.add_step_result step_result
      if step_result.is_failed then
        let (t, s) := tick s
        let scenario_result := (scenario_result.set_ended_at t).mark_failed
        let s := fireEvent s (.scenarioFail scenario_result)
        ((scenario_result, none), s)
      else
        runner.runStepsLoop rest scenario_result s

/-- Runner.run_scenario. -/
def Runner.run_scenario (runner : Runner) (scenario : VirtualScenario) (s : RunState) :
    (ScenarioResult × Option Exc) × RunState :=
  let scenario_result := ScenarioResult.init scenario
  let scenario_result := scenario_result.set_scope scenario.scope
  if scenario.skipped then
    let scenario_result := scenario_result.mark_skipped
    let s := fireEvent s (.scenarioSkip scenario_result)
    ((scenario_result, none), s)
  else
    let s := fireEvent s (.scenarioRun scenario_result)
    let (t, s) := tick s
    let scenario_result := scenario_result.set_started_at t
    match runner.runStepsLoop scenario.steps scenario_result s with
    | ((scenario_result, some e), s) => ((scenario_result, some e), s)
    | ((scenario_result, none), s) =>
      if !scenario_result.is_failed then
        let (t₂, s) := tick s
        let scenario_result := (scenario_result.set_ended_at t₂).mark_passed
        let s := fireEvent s (.scenarioPass scenario_result)
        ((scenario_result, none), s)
      else ((scenario_result, none), s)

/-- The loop of Runner.run: run each scenario and add its result to the
report; an exception propagating out of run_scenario aborts the loop and the
locally built report is lost (the caller receives only the exception). -/
def Runner.runLoop (runner : Runner) (scenarios : List VirtualScenario)
    (report : Report) (s : RunState) : Except Exc Report × RunState :=
  match scenarios with
  | [] => (.ok report, s)
  | scn :: rest =>
    match runner.run_scenario scn s with
    | ((_, some e), s) => (.error e, s)
    | ((scenario_result, none), s) =>
      runner.runLoop rest (report.add_result scenario_result) s

/-- Runner.run. -/
def Runner.run (runner : Runner) (scenarios : List VirtualScenario) (s : RunState) :
    Except Exc Report × RunState :=
  runner.runLoop scenarios Report.init s

/-! Helper definitions used to state the claims. -/

/-- One update step of the running minimum kept by Report.add_result. -/
def optMin (acc : Option Timestamp) (t : Timestamp) : Option Timestamp :=
  match acc with
  | none => some t
  | some c => some (min c t)

/-- One update step of the running maximum kept by Report.add_result. -/
def optMax (acc : Option Timestamp) (t : Timestamp) : Option Timestamp :=
  match acc with
  | none => some t
  | some c => some (max c t)

/-- The started_at update of Report.add_result in one equation. -/
def updMin (acc : Option Timestamp) : Option Timestamp → Option Timestamp
  | some t => if t ≠ 0 then optMin acc t else acc
  | none => acc

/-- The ended_at update of Report.add_result in one equation. -/
def updMax (acc : Option Timestamp) : Option Timestamp → Option Timestamp
  | some t => if t ≠ 0 then optMax acc t else acc
  | none => acc

/-- The start timestamps of a result list that Report.add_result actually
consults: present and truthy (nonzero) ones. -/
def truthyStarts (rs : List ScenarioResult) : List Timestamp :=
  rs.filterMap fun r =>
    match r.started_at with
    | some t => if t ≠ 0 then some t else none
    | none => none

/-- The end timestamps of a result list that Report.add_result actually
consults: present and truthy (nonzero) ones. -/
def truthyEnds (rs : List ScenarioResult) : List Timestamp :=
  rs.filterMap fun r =>
    match r.ended_at with
    | some t => if t ≠ 0 then some t else none
    | none => none

/-- Recognizer of step-run events: one such event is fired per step body
invocation, so counting them counts invoked steps. -/
def isStepRun : REvent → Bool
  | .stepRun _ => true
  | _ => false

/-- The mutating operations a ScenarioResult exposes for status and
timestamps. -/
inductive ResultOp where
  | markPassed
  | markFailed
  | markSkipped
  | setStartedAt (t : Timestamp)
  | setEndedAt (t : Timestamp)
  deriving DecidableEq, Repr

/-- Applying one ScenarioResult operation. -/
def applyOp (r : ScenarioResult) : ResultOp → ScenarioResult
  | .markPassed => r.mark_passed
  | .markFailed => r.mark_failed
  | .markSkipped => r.mark_skipped
  | .setStartedAt t => r.set_started_at t
  | .setEndedAt t => r.set_ended_at t

/-- The status set by the last mark operation of a sequence, if any. -/
def lastMark : List ResultOp → Option ScenarioStatus
  | [] => none
  | op :: rest =>
    match lastMark rest with
    | some st => some st
    | none =>
      match op with
      | .markPassed => some .passed
      | .markFailed => some .failed
      | .markSkipped => some .skipped
      | _ => none

/-- The argument of the last set_started_at of a sequence, if any. -/
def lastSetStarted : List ResultOp → Option Timestamp
  | [] => none
  | op :: rest =>
    match lastSetStarted rest with
    | some t => some t
    | none =>
      match op with
      | .setStartedAt t => some t
      | _ => none

/-- The argument of the last set_ended_at of a sequence, if any. -/
def lastSetEnded : List ResultOp → Option Timestamp
  | [] => none
  | op :: rest =>
    match lastSetEnded rest with
    | some t => some t
    | none =>
      match op with
      | .setEndedAt t => some t
      | _ => none

/-! Concrete sample inputs used by witnesses and counterexamples. -/

/-- A scenario with no steps. -/
def scn0 : VirtualScenario := ⟨0, false, [], []⟩

/-- A result with start 1.0 and end 2.0. -/
def res12 : ScenarioResult :=
  ((ScenarioResult.init scn0).set_started_at 1).set_ended_at 2

/-- A result with start 3.0 and end 4.0. -/
def res34 : ScenarioResult :=
  ((ScenarioResult.init scn0).set_started_at 3).set_ended_at 4

/-- A result whose start timestamp is 0.0: set, and the minimum of all
timestamps in sight, yet falsy for Python. -/
def resZero : ScenarioResult :=
  ((ScenarioResult.init scn0).set_started_at 0).set_ended_at 2

/-- A passing sample result. -/
def resPassed : ScenarioResult := (ScenarioResult.init scn0).mark_passed

/-- A failing sample result. -/
def resFailed : ScenarioResult := (ScenarioResult.init scn0).mark_failed

/-- A second failing sample result, distinguishable from resFailed. -/
def resFailedLate : ScenarioResult :=
  ((ScenarioResult.init scn0).mark_failed).set_started_at 5

/-- A step that returns normally. -/
def stepOk : VirtualStep := ⟨"ok", false, .ok ()⟩

/-- A step that raises a plain (non-interrupt) exception of type 3. -/
def stepBoom : VirtualStep := ⟨"boom", false, .error ⟨3⟩⟩

/-- A step that raises the interrupt-class exception of type 7. -/
def stepKbd : VirtualStep := ⟨"kbd", true, .error ⟨7⟩⟩

/-- A third declared step, never reached in the counterexample scenario. -/
def stepAfter : VirtualStep := ⟨"after", false, .ok ()⟩

/-- The scenario with steps A passing, B failing, C declared after B. -/
def scnABC : VirtualScenario := ⟨1, false, [stepOk, stepBoom, stepAfter], []⟩

/-- A skipped scenario that still declares steps. -/
def scnSkip : VirtualScenario := ⟨2, true, [stepBoom], []⟩

/-- A scenario that completes quietly (single passing step). -/
def scnQuiet : VirtualScenario := ⟨3, false, [stepOk], []⟩

/-- A scenario whose second step raises the interrupt-class exception. -/
def scnKbd : VirtualScenario := ⟨4, false, [stepOk, stepKbd], []⟩

/-- A runner whose interrupt set holds exception type 7. -/
def runner7 : Runner := ⟨[7]⟩

/-! Theorems. -/

theorem Report.add_result_eq (rep : Report) (res : ScenarioResult) :
    rep.add_result res = { rep with
      total := rep.total + 1
      passed := rep.passed + (if res.status = .passed then 1 else 0)
      failed := rep.failed + (if res.status = .failed then 1 else 0)
      skipped := rep.skipped + (if res.status = .skipped then 1 else 0)
      started_at := updMin rep.started_at res.started_at
      ended_at := updMax rep.ended_at res.ended_at } := by
  unfold Report.add_result updMin updMax optMin optMax
  unfold ScenarioResult.is_passed ScenarioResult.is_failed ScenarioResult.is_skipped
  cases hst : res.status <;>
    cases hs : res.started_at <;>
    cases he : res.ended_at <;>
    cases hrs : rep.started_at <;>
    cases hre : rep.ended_at <;>
    simp only [hst, hs, he, hrs, hre, beq_iff_eq, reduceCtorEq, if_true, if_false] <;>
    (try split_ifs) <;>
    (first | rfl | simp_all)

theorem status_partition (rs : List ScenarioResult) :
    rs.countP (fun r => r.status == ScenarioStatus.passed)
      + rs.countP (fun r => r.status == ScenarioStatus.failed)
      + rs.countP (fun r => r.status == ScenarioStatus.skipped)
      + rs.countP (fun r => r.status == ScenarioStatus.pending)
      = rs.length := by
  induction rs with
  | nil => simp
  | cons r rest ih =>
    simp only [List.countP_cons, List.length_cons]
    cases h : r.status <;> simp [h] <;> omega

theorem foldl_add_result_counts (rs : List ScenarioResult) : ∀ rep : Report,
    (rs.foldl Report.add_result rep).total = rep.total + rs.length
    ∧ (rs.foldl Report.add_result rep).passed
        = rep.passed + rs.countP (fun r => r.status == ScenarioStatus.passed)
    ∧ (rs.foldl Report.add_result rep).failed
        = rep.failed + rs.countP (fun r => r.status == ScenarioStatus.failed)
    ∧ (rs.foldl Report.add_result rep).skipped
        = rep.skipped + rs.countP (fun r => r.status == ScenarioStatus.skipped) := by
  induction rs with
  | nil => simp
  | cons r rest ih =>
    intro rep
    obtain ⟨h1, h2, h3, h4⟩ := ih (rep.add_result r)
    have hr := Report.add_result_eq rep r
    refine ⟨?_, ?_, ?_, ?_⟩
    · rw [List.foldl_cons, h1, hr]
      simp only [List.length_cons]
      omega
    · rw [List.foldl_cons, h2, hr]
      simp only [List.countP_cons]
      cases h : r.status <;> simp [h] <;> omega
    · rw [List.foldl_cons, h3, hr]
      simp only [List.countP_cons]
      cases h : r.status <;> simp [h] <;> omega
    · rw [List.foldl_cons, h4, hr]
      simp only [List.countP_cons]
      cases h : r.status <;> simp [h] <;> omega

/-- C10: Report.add_result increments total for every added result, pending
ones included, while passed, failed and skipped count exactly the results in
the matching terminal status; hence passed + failed + skipped never exceeds
total and equals it exactly when no added result was pending. -/
theorem report_add_result_counts (rs : List ScenarioResult) :
    (addAllResults rs).total = rs.length
  ∧ (addAllResults rs).passed = rs.countP (fun r => r.status == ScenarioStatus.passed)
  ∧ (addAllResults rs).failed = rs.countP (fun r => r.status == ScenarioStatus.failed)
  ∧ (addAllResults rs).skipped = rs.countP (fun r => r.status == ScenarioStatus.skipped)
  ∧ (addAllResults rs).passed + (addAllResults rs).failed + (addAllResults rs).skipped
      ≤ (addAllResults rs).total
  ∧ ((addAllResults rs).passed + (addAllResults rs).failed + (addAllResults rs).skipped
        = (addAllResults rs).total
      ↔ rs.countP (fun r => r.status == ScenarioStatus.pending) = 0) := by
  obtain ⟨h1, h2, h3, h4⟩ := foldl_add_result_counts rs Report.init
  have hp := status_partition rs
  unfold addAllResults
  rw [h1, h2, h3, h4]
  simp only [Report.init]
  refine ⟨by omega, by omega, by omega, by omega, by omega, by omega⟩

/-- C7: from_existing with an empty underlying list fails fast, and a
successfully constructed AggregatedResult holds exactly the non-empty list it
was given. -/
theorem aggregated_from_existing_nonempty (main : ScenarioResult) (rs : List ScenarioResult)
    (res : AggregatedResult) (h : AggregatedResult.from_existing main rs = .ok res) :
    (∀ m : ScenarioResult,
        AggregatedResult.from_existing m [] = .error "assert len(scenario_results) > 0")
  ∧ rs ≠ [] ∧ res.scenario_results = rs := by
  refine ⟨fun m => by simp [AggregatedResult.from_existing], ?_, ?_⟩
  · intro hrs
    subst hrs
    simp [AggregatedResult.from_existing] at h
  · unfold AggregatedResult.from_existing at h
    by_cases hl : rs.length > 0
    · simp only [hl, if_pos] at h
      cases h
      rfl
    · simp [hl] at h

/-- The aggregate produced from resPassed over the singleton list. -/
def sampleAgg : AggregatedResult :=
  ((AggregatedResult.from_existing resPassed [resPassed]).toOption).get (by rfl)

theorem aggregated_from_existing_nonempty_witness :
    (∀ m : ScenarioResult,
        AggregatedResult.from_existing m [] = .error "assert len(scenario_results) > 0")
  ∧ [resPassed] ≠ ([] : List ScenarioResult) ∧ sampleAgg.scenario_results = [resPassed] :=
  aggregated_from_existing_nonempty resPassed [resPassed] sampleAgg (by rfl)

/-- C9 counterexample: the mark and set operations of ScenarioResult are not
guarded, so a terminal status can be overwritten by a later mark and a
timestamp by a later set, contradicting the one-way claim. -/
theorem scenario_result_one_way_cex :
    ((ScenarioResult.init scn0).mark_passed).status = ScenarioStatus.passed
  ∧ (((ScenarioResult.init scn0).mark_passed).mark_failed).status = ScenarioStatus.failed
  ∧ (((ScenarioResult.init scn0).set_started_at 1).set_started_at 2).started_at = some 2
  ∧ ((ScenarioResult.init scn0).set_started_at 1).started_at = some 1 :=
  ⟨rfl, rfl, rfl, rfl⟩

/-- C9 (amended): ScenarioResult does not enforce one-way transitions; its
mark and set operations overwrite unconditionally, so after any sequence of
operations the status is the one set by the last mark (the initial status if
none) and each timestamp is the last value set for it. -/
theorem scenario_result_last_write (r : ScenarioResult) (ops : List ResultOp) :
    (ops.foldl applyOp r).status = (lastMark ops).getD r.status
  ∧ (ops.foldl applyOp r).started_at = ((lastSetStarted ops).map some).getD r.started_at
  ∧ (ops.foldl applyOp r).ended_at = ((lastSetEnded ops).map some).getD r.ended_at := by
  induction ops generalizing r with
  | nil => exact ⟨rfl, rfl, rfl⟩
  | cons op rest ih =>
    obtain ⟨ih1, ih2, ih3⟩ := ih (applyOp r op)
    refine ⟨?_, ?_, ?_⟩
    · rw [List.foldl_cons, ih1]
      cases hm : lastMark rest <;> cases op <;>
        simp [lastMark, hm, applyOp, ScenarioResult.mark_passed, ScenarioResult.mark_failed,
          ScenarioResult.mark_skipped, ScenarioResult.set_started_at, ScenarioResult.set_ended_at]
    · rw [List.foldl_cons, ih2]
      cases hm : lastSetStarted rest <;> cases op <;>
        simp [lastSetStarted, hm, applyOp, ScenarioResult.mark_passed, ScenarioResult.mark_failed,
          ScenarioResult.mark_skipped, ScenarioResult.set_started_at, ScenarioResult.set_ended_at]
    · rw [List.foldl_cons, ih3]
      cases hm : lastSetEnded rest <;> cases op <;>
        simp [lastSetEnded, hm, applyOp, ScenarioResult.mark_passed, ScenarioResult.mark_failed,
          ScenarioResult.mark_skipped, ScenarioResult.set_started_at, ScenarioResult.set_ended_at]

theorem foldl_optMin_some (ts : List Timestamp) :
    ∀ c : Timestamp, ts.foldl optMin (some c) = some (ts.foldl min c) := by
  induction ts with
  | nil => intro c; rfl
  | cons a as ih => intro c; simpa [optMin] using ih (min c a)

theorem foldl_optMin_none (ts : List Timestamp) : ts.foldl optMin none = ts.min? := by
  cases ts with
  | nil => rfl
  | cons a as => simp [List.min?, optMin, foldl_optMin_some]

theorem foldl_optMax_some (ts : List Timestamp) :
    ∀ c : Timestamp, ts.foldl optMax (some c) = some (ts.foldl max c) := by
  induction ts with
  | nil => intro c; rfl
  | cons a as ih => intro c; simpa [optMax] using ih (max c a)

theorem foldl_optMax_none (ts : List Timestamp) : ts.foldl optMax none = ts.max? := by
  cases ts with
  | nil => rfl
  | cons a as => simp [List.max?, optMax, foldl_optMax_some]

theorem foldl_add_result_started (rs : List ScenarioResult) : ∀ rep : Report,
    (rs.foldl Report.add_result rep).started_at
      = (truthyStarts rs).foldl optMin rep.started_at := by
  induction rs with
  | nil => intro rep; rfl
  | cons r rest ih =>
    intro rep
    rw [List.foldl_cons, ih (rep.add_result r), Report.add_result_eq]
    cases hs : r.started_at with
    | none => simp [truthyStarts, List.filterMap_cons, hs, updMin]
    | some t =>
      by_cases h0 : t = 0
      · simp [truthyStarts, List.filterMap_cons, hs, h0, updMin]
      · simp [truthyStarts, List.filterMap_cons, hs, h0, updMin]

theorem foldl_add_result_ended (rs : List ScenarioResult) : ∀ rep : Report,
    (rs.foldl Report.add_result rep).ended_at
      = (truthyEnds rs).foldl optMax rep.ended_at := by
  induction rs with
  | nil => intro rep; rfl
  | cons r rest ih =>
    intro rep
    rw [List.foldl_cons, ih (rep.add_result r), Report.add_result_eq]
    cases hs : r.ended_at with
    | none => simp [truthyEnds, List.filterMap_cons, hs, updMax]
    | some t =>
      by_cases h0 : t = 0
      · simp [truthyEnds, List.filterMap_cons, hs, h0, updMax]
      · simp [truthyEnds, List.filterMap_cons, hs, h0, updMax]

/-- C5 counterexample: a result whose started_at is set to 0.0 is skipped by
the truthiness guard of Report.add_result, so the report's started_at does
not equal the minimum start timestamp over the added results. -/
theorem report_timestamps_cex :
    resZero.started_at = some 0 ∧ (addAllResults [resZero]).started_at = none :=
  ⟨rfl, by decide⟩

/-- C5 (amended): the report's started_at is the minimum, and ended_at the
maximum, over the added results' timestamps that are set and nonzero (Python
truthiness); elapsed is their difference when both are present; the concrete
examples of the claim hold as stated. -/
theorem report_timestamps (rs : List ScenarioResult) :
    (∀ t : Timestamp, (addAllResults rs).started_at = some t ↔
        t ∈ truthyStarts rs ∧ ∀ u ∈ truthyStarts rs, t ≤ u)
  ∧ (∀ t : Timestamp, (addAllResults rs).ended_at = some t ↔
        t ∈ truthyEnds rs ∧ ∀ u ∈ truthyEnds rs, u ≤ t)
  ∧ (∀ e s : Timestamp, (addAllResults rs).started_at = some s →
        (addAllResults rs).ended_at = some e → (addAllResults rs).elapsed = e - s)
  ∧ (addAllResults [res12, res34]).started_at = some 1
  ∧ (addAllResults [res12, res34]).ended_at = some 4
  ∧ (addAllResults [res12, res34]).elapsed = 3
  ∧ (addAllResults []).total = 0 ∧ (addAllResults []).passed = 0
  ∧ (addAllResults []).failed = 0 ∧ (addAllResults []).skipped = 0
  ∧ (addAllResults []).elapsed = 0 := by
  haveI : Std.Antisymm ((· : Timestamp) ≤ ·) := ⟨fun h1 h2 => le_antisymm h1 h2⟩
  have hstart : (addAllResults rs).started_at = (truthyStarts rs).min? := by
    rw [addAllResults, foldl_add_result_started rs Report.init]
    exact foldl_optMin_none _
  have hend : (addAllResults rs).ended_at = (truthyEnds rs).max? := by
    rw [addAllResults, foldl_add_result_ended rs Report.init]
    exact foldl_optMax_none _
  have c1 : (addAllResults [res12, res34]).started_at = some 1 := by decide
  have c2 : (addAllResults [res12, res34]).ended_at = some 4 := by decide
  refine ⟨?_, ?_, ?_, c1, c2, ?_, rfl, rfl, rfl, rfl, rfl⟩
  · intro t
    rw [hstart]
    exact List.min?_eq_some_iff le_refl min_choice (fun _ _ _ => le_min_iff)
  · intro t
    rw [hend]
    exact List.max?_eq_some_iff le_refl max_choice (fun _ _ _ => max_le_iff)
  · intro e s h1 h2
    simp [Report.elapsed, h1, h2]
  · simp [Report.elapsed, c1, c2]
    norm_num

theorem report_timestamps_witness :
    (1:Timestamp) ∈ truthyStarts [res12, res34]
    ∧ ∀ u ∈ truthyStarts [res12, res34], (1:Timestamp) ≤ u :=
  ((report_timestamps [res12, res34]).1 1).mp (by decide)

theorem run_step_ok_eq (runner : Runner) (step : VirtualStep) (s : RunState)
    (h : step.body = .ok ()) :
    runner.run_step step s =
      ((⟨step, .passed, some s.clock, some (s.clock + 1), none⟩, none),
       ⟨s.clock + 1 + 1,
        s.events ++ [.stepRun (StepResult.init step),
          .stepPass ⟨step, .passed, some s.clock, some (s.clock + 1), none⟩]⟩) := by
  simp [Runner.run_step, h, tick, fireEvent, StepResult.init, StepResult.set_started_at,
    StepResult.set_ended_at, StepResult.mark_passed]

theorem run_step_error_eq (runner : Runner) (step : VirtualStep) (s : RunState) (e : Exc)
    (h : step.body = .error e) :
    runner.run_step step s =
      ((⟨step, .failed, some s.clock, some (s.clock + 1), some ⟨e.type, e⟩⟩,
        if e.type ∈ runner.interrupt_exceptions then some e else none),
       ⟨s.clock + 1 + 1,
        s.events ++ [.stepRun (StepResult.init step),
          .stepFail ⟨step, .failed, some s.clock, some (s.clock + 1), some ⟨e.type, e⟩⟩]⟩) := by
  by_cases hm : e.type ∈ runner.interrupt_exceptions <;>
    simp [Runner.run_step, h, hm, tick, fireEvent, StepResult.init, StepResult.set_started_at,
      StepResult.set_ended_at, StepResult.set_exc_info, StepResult.mark_failed]

theorem runStepsLoop_all_ok (runner : Runner) (steps : List VirtualStep) :
    ∀ (res : ScenarioResult) (s : RunState),
      (∀ st ∈ steps, st.body = .ok ()) →
      ∃ added evs s2,
        runner.runStepsLoop steps res s
          = (({ res with step_results := res.step_results ++ added }, none), s2)
        ∧ added.map StepResult.step = steps
        ∧ (∀ r ∈ added, r.status = .passed ∧ r.started_at.isSome ∧ r.ended_at.isSome)
        ∧ s2.events = s.events ++ evs
        ∧ evs.countP isStepRun = steps.length := by
  induction steps with
  | nil =>
    intro res s _
    refine ⟨[], [], s, ?_, rfl, by simp, by simp, rfl⟩
    simp [Runner.runStepsLoop]
  | cons st rest ih =>
    intro res s hok
    have hst : st.body = .ok () := hok st (by simp)
    have hrest : ∀ x ∈ rest, x.body = .ok () := fun x hx => hok x (by simp [hx])
    obtain ⟨added, evs, s2, heq, hmap, hstat, hev, hcount⟩ :=
      ih (res.add_step_result ⟨st, .passed, some s.clock, some (s.clock + 1), none⟩)
        ⟨s.clock + 1 + 1,
         s.events ++ [.stepRun (StepResult.init st),
           .stepPass ⟨st, .passed, some s.clock, some (s.clock + 1), none⟩]⟩ hrest
    refine ⟨⟨st, .passed, some s.clock, some (s.clock + 1), none⟩ :: added,
      REvent.stepRun (StepResult.init st)
        :: REvent.stepPass ⟨st, .passed, some s.clock, some (s.clock + 1), none⟩ :: evs,
      s2, ?_, ?_, ?_, ?_, ?_⟩
    · rw [Runner.runStepsLoop, run_step_ok_eq runner st s hst]
      simp only [StepResult.is_failed]
      rw [if_neg (by simp)]
      rw [heq]
      simp [ScenarioResult.add_step_result]
    · simp [hmap]
    · intro r hr
      rcases List.mem_cons.mp hr with hr | hr
      · subst hr; exact ⟨rfl, rfl, rfl⟩
      · exact hstat r hr
    · rw [hev]; simp
    · simp [isStepRun, hcount, List.countP_cons]

theorem runStepsLoop_fail (runner : Runner) (e : Exc)
    (hne : e.type ∉ runner.interrupt_exceptions) (bad : VirtualStep)
    (hbody : bad.body = .error e) (pre : List VirtualStep) :
    ∀ (rest : List VirtualStep) (res : ScenarioResult) (s : RunState),
      (∀ st ∈ pre, st.body = .ok ()) →
      ∃ added badSR t s2 evs,
        runner.runStepsLoop (pre ++ bad :: rest) res s
          = (({ res with
                step_results := res.step_results ++ added ++ [badSR]
                ended_at := some t
                status := .failed }, none), s2)
        ∧ added.map StepResult.step = pre
        ∧ (∀ r ∈ added, r.status = .passed)
        ∧ badSR.step = bad ∧ badSR.status = .failed ∧ badSR.exc_info = some ⟨e.type, e⟩
        ∧ badSR.started_at.isSome ∧ badSR.ended_at.isSome
        ∧ s2.events = s.events ++ evs
        ∧ evs.countP isStepRun = pre.length + 1 := by
  induction pre with
  | nil =>
    intro rest res s _
    refine ⟨[], ⟨bad, .failed, some s.clock, some (s.clock + 1), some ⟨e.type, e⟩⟩,
      s.clock + 1 + 1,
      ⟨s.clock + 1 + 1 + 1,
       s.events ++ [.stepRun (StepResult.init bad),
         .stepFail ⟨bad, .failed, some s.clock, some (s.clock + 1), some ⟨e.type, e⟩⟩,
         .scenarioFail (((res.add_step_result
            ⟨bad, .failed, some s.clock, some (s.clock + 1), some ⟨e.type, e⟩⟩).set_ended_at
              (s.clock + 1 + 1)).mark_failed)]⟩,
      [.stepRun (StepResult.init bad),
       .stepFail ⟨bad, .failed, some s.clock, some (s.clock + 1), some ⟨e.type, e⟩⟩,
       .scenarioFail (((res.add_step_result
          ⟨bad, .failed, some s.clock, some (s.clock + 1), some ⟨e.type, e⟩⟩).set_ended_at
            (s.clock + 1 + 1)).mark_failed)],
      ?_, rfl, by simp, rfl, rfl, rfl, rfl, rfl, by simp, by simp [isStepRun]⟩
    rw [List.nil_append, Runner.runStepsLoop, run_step_error_eq runner bad s e hbody]
    rw [if_neg hne]
    simp only [StepResult.is_failed]
    rw [if_pos (by simp)]
    simp [tick, fireEvent, ScenarioResult.add_step_result, ScenarioResult.set_ended_at,
      ScenarioResult.mark_failed]
  | cons st pre ih =>
    intro rest res s hok
    have hst : st.body = .ok () := hok st (by simp)
    have hpre : ∀ x ∈ pre, x.body = .ok () := fun x hx => hok x (by simp [hx])
    obtain ⟨added, badSR, t, s2, evs, heq, hmap, hstat, hbs, hbst, hbe, hbs1, hbs2, hev, hcount⟩ :=
      ih rest (res.add_step_result ⟨st, .passed, some s.clock, some (s.clock + 1), none⟩)
        ⟨s.clock + 1 + 1,
         s.events ++ [.stepRun (StepResult.init st),
           .stepPass ⟨st, .passed, some s.clock, some (s.clock + 1), none⟩]⟩ hpre
    refine ⟨⟨st, .passed, some s.clock, some (s.clock + 1), none⟩ :: added, badSR, t, s2,
      REvent.stepRun (StepResult.init st)
        :: REvent.stepPass ⟨st, .passed, some s.clock, some (s.clock + 1), none⟩ :: evs,
      ?_, ?_, ?_, hbs, hbst, hbe, hbs1, hbs2, ?_, ?_⟩
    · rw [List.cons_append, Runner.runStepsLoop, run_step_ok_eq runner st s hst]
      simp only [StepResult.is_failed]
      rw [if_neg (by simp)]
      rw [heq]
      simp [ScenarioResult.add_step_result]
    · simp [hmap]
    · intro r hr
      rcases List.mem_cons.mp hr with hr | hr
      · subst hr; rfl
      · exact hstat r hr
    · rw [hev]; simp
    · simp [isStepRun, hcount, List.countP_cons]

theorem runStepsLoop_interrupt (runner : Runner) (e : Exc)
    (hm : e.type ∈ runner.interrupt_exceptions) (bad : VirtualStep)
    (hbody : bad.body = .error e) (pre : List VirtualStep) :
    ∀ (rest : List VirtualStep) (res : ScenarioResult) (s : RunState),
      (∀ st ∈ pre, st.body = .ok ()) →
      ∃ added badSR s2 evs,
        runner.runStepsLoop (pre ++ bad :: rest) res s
          = (({ res with step_results := res.step_results ++ added }, some e), s2)
        ∧ added.map StepResult.step = pre
        ∧ badSR.step = bad ∧ badSR.status = .failed ∧ badSR.exc_info = some ⟨e.type, e⟩
        ∧ badSR.ended_at.isSome
        ∧ s2.events = s.events ++ evs
        ∧ REvent.stepFail badSR ∈ evs := by
  induction pre with
  | nil =>
    intro rest res s _
    refine ⟨[], ⟨bad, .failed, some s.clock, some (s.clock + 1), some ⟨e.type, e⟩⟩,
      ⟨s.clock + 1 + 1,
       s.events ++ [.stepRun (StepResult.init bad),
         .stepFail ⟨bad, .failed, some s.clock, some (s.clock + 1), some ⟨e.type, e⟩⟩]⟩,
      [.stepRun (StepResult.init bad),
       .stepFail ⟨bad, .failed, some s.clock, some (s.clock + 1), some ⟨e.type, e⟩⟩],
      ?_, rfl, rfl, rfl, rfl, rfl, by simp, by simp⟩
    rw [List.nil_append, Runner.runStepsLoop, run_step_error_eq runner bad s e hbody]
    rw [if_pos hm]
    simp
  | cons st pre ih =>
    intro rest res s hok
    have hst : st.body = .ok () := hok st (by simp)
    have hpre : ∀ x ∈ pre, x.body = .ok () := fun x hx => hok x (by simp [hx])
    obtain ⟨added, badSR, s2, evs, heq, hmap, hbs, hbst, hbe, hbe2, hev, hmem⟩ :=
      ih rest (res.add_step_result ⟨st, .passed, some s.clock, some (s.clock + 1), none⟩)
        ⟨s.clock + 1 + 1,
         s.events ++ [.stepRun (StepResult.init st),
           .stepPass ⟨st, .passed, some s.clock, some (s.clock + 1), none⟩]⟩ hpre
    refine ⟨⟨st, .passed, some s.clock, some (s.clock + 1), none⟩ :: added, badSR, s2,
      REvent.stepRun (StepResult.init st)
        :: REvent.stepPass ⟨st, .passed, some s.clock, some (s.clock + 1), none⟩ :: evs,
      ?_, ?_, hbs, hbst, hbe, hbe2, ?_, by simp [hmem]⟩
    · rw [List.cons_append, Runner.runStepsLoop, run_step_ok_eq runner st s hst]
      simp only [StepResult.is_failed]
      rw [if_neg (by simp)]
      rw [heq]
      simp [ScenarioResult.add_step_result]
    · simp [hmap]
    · rw [hev]; simp

theorem run_scenario_skipped_eq (runner : Runner) (scn : VirtualScenario) (s : RunState)
    (h : scn.skipped = true) :
    runner.run_scenario scn s =
      ((((ScenarioResult.init scn).set_scope scn.scope).mark_skipped, none),
       ⟨s.clock,
        s.events ++ [.scenarioSkip (((ScenarioResult.init scn).set_scope scn.scope).mark_skipped)]⟩) := by
  simp [Runner.run_scenario, h, fireEvent]

theorem run_scenario_all_ok (runner : Runner) (scn : VirtualScenario) (s : RunState)
    (hskip : scn.skipped = false) (hok : ∀ st ∈ scn.steps, st.body = .ok ()) :
    ∃ res s2,
      runner.run_scenario scn s = ((res, none), s2)
      ∧ res.status = .passed
      ∧ res.step_results.map StepResult.step = scn.steps
      ∧ res.started_at.isSome ∧ res.ended_at.isSome := by
  obtain ⟨added, evs, s2, heq, hmap, hstat, hev, hcount⟩ :=
    runStepsLoop_all_ok runner scn.steps
      (((ScenarioResult.init scn).set_scope scn.scope).set_started_at s.clock)
      ⟨s.clock + 1,
       s.events ++ [.scenarioRun ((ScenarioResult.init scn).set_scope scn.scope)]⟩ hok
  have main : runner.run_scenario scn s =
      (((({ (((ScenarioResult.init scn).set_scope scn.scope).set_started_at s.clock) with
           step_results :=
             ((((ScenarioResult.init scn).set_scope scn.scope).set_started_at s.clock)).step_results
               ++ added }).set_ended_at s2.clock).mark_passed, none),
       ⟨s2.clock + 1,
        s2.events ++ [.scenarioPass
          ((({ (((ScenarioResult.init scn).set_scope scn.scope).set_started_at s.clock) with
             step_results :=
               ((((ScenarioResult.init scn).set_scope scn.scope).set_started_at
                 s.clock)).step_results ++ added }).set_ended_at s2.clock).mark_passed)]⟩) := by
    rw [Runner.run_scenario]
    rw [if_neg (by simp [hskip])]
    simp only [fireEvent, tick]
    rw [heq]
    simp only [ScenarioResult.is_failed, ScenarioResult.init, ScenarioResult.set_scope,
      ScenarioResult.set_started_at, ScenarioResult.set_ended_at, ScenarioResult.mark_passed,
      fireEvent, tick]
    rfl
  exact ⟨_, _, main, rfl, by simpa using hmap, rfl, rfl⟩

/-- C4: a skipped scenario fires only the skip event, runs no step, gets no
timestamps and ends skipped; a non-skipped scenario all of whose steps return
normally (in particular one with zero steps) ends passed. -/
theorem runner_skip_and_pass (runner : Runner) (scn scn2 : VirtualScenario) (s : RunState)
    (hskip : scn.skipped = true)
    (h2 : scn2.skipped = false) (hok : ∀ st ∈ scn2.steps, st.body = .ok ()) :
    (∃ res, runner.run_scenario scn s =
        ((res, none), ⟨s.clock, s.events ++ [.scenarioSkip res]⟩)
      ∧ res.status = .skipped ∧ res.step_results = []
      ∧ res.started_at = none ∧ res.ended_at = none)
  ∧ (∃ res2 s2, runner.run_scenario scn2 s = ((res2, none), s2)
      ∧ res2.status = .passed
      ∧ res2.step_results.map StepResult.step = scn2.steps) := by
  constructor
  · exact ⟨((ScenarioResult.init scn).set_scope scn.scope).mark_skipped,
      run_scenario_skipped_eq runner scn s hskip, rfl, rfl, rfl, rfl⟩
  · obtain ⟨res2, s2, heq, hstat, hmap, _, _⟩ := run_scenario_all_ok runner scn2 s h2 hok
    exact ⟨res2, s2, heq, hstat, hmap⟩

theorem runner_skip_and_pass_witness :
    (∃ res, runner7.run_scenario scnSkip ⟨0, []⟩ =
        ((res, none), ⟨0, [] ++ [.scenarioSkip res]⟩)
      ∧ res.status = .skipped ∧ res.step_results = []
      ∧ res.started_at = none ∧ res.ended_at = none)
  ∧ (∃ res2 s2, runner7.run_scenario scnQuiet ⟨0, []⟩ = ((res2, none), s2)
      ∧ res2.status = .passed
      ∧ res2.step_results.map StepResult.step = scnQuiet.steps) :=
  runner_skip_and_pass runner7 scnSkip scnQuiet ⟨0, []⟩ rfl rfl (by decide)

/-- C3: a non-skipped scenario whose declared steps are a passing prefix, a
failing step (plain exception) and any suffix fails with exactly the prefix
results (all passed) plus the failing result, in declared order; the steps
after the failure are never invoked. -/
theorem runner_stops_at_first_failing_step (runner : Runner) (e : Exc)
    (hne : e.type ∉ runner.interrupt_exceptions)
    (scn : VirtualScenario) (pre rest : List VirtualStep) (bad : VirtualStep)
    (hskip : scn.skipped = false)
    (hsteps : scn.steps = pre ++ bad :: rest)
    (hpre : ∀ st ∈ pre, st.body = .ok ()) (hbody : bad.body = .error e) (s : RunState) :
    ∃ res s2,
      runner.run_scenario scn s = ((res, none), s2)
      ∧ res.status = .failed
      ∧ res.step_results.length = pre.length + 1
      ∧ res.step_results.map StepResult.step = pre ++ [bad]
      ∧ (∀ r ∈ res.step_results.dropLast, r.status = .passed)
      ∧ (∃ rb, res.step_results.getLast? = some rb ∧ rb.status = .failed)
      ∧ s2.events.countP isStepRun = s.events.countP isStepRun + (pre.length + 1) := by
  obtain ⟨added, badSR, t, s2, evs, heq, hmap, hstat, hbs, hbst, hbe, hbs1, hbs2, hev, hcount⟩ :=
    runStepsLoop_fail runner e hne bad hbody pre rest
      (((ScenarioResult.init scn).set_scope scn.scope).set_started_at s.clock)
      ⟨s.clock + 1,
       s.events ++ [.scenarioRun ((ScenarioResult.init scn).set_scope scn.scope)]⟩ hpre
  have hlen : added.length = pre.length := by simpa using congrArg List.length hmap
  have main : runner.run_scenario scn s =
      (({ (((ScenarioResult.init scn).set_scope scn.scope).set_started_at s.clock) with
          step_results :=
            ((((ScenarioResult.init scn).set_scope scn.scope).set_started_at
              s.clock)).step_results ++ added ++ [badSR]
          ended_at := some t
          status := .failed }, none), s2) := by
    rw [Runner.run_scenario]
    rw [if_neg (by simp [hskip])]
    simp only [fireEvent, tick]
    rw [hsteps, heq]
    simp only [ScenarioResult.is_failed, ScenarioResult.init, ScenarioResult.set_scope,
      ScenarioResult.set_started_at]
    rfl
  refine ⟨_, _, main, rfl, ?_, ?_, ?_, ?_, ?_⟩
  · simp [ScenarioResult.init, ScenarioResult.set_scope, ScenarioResult.set_started_at, hlen]
  · simp [ScenarioResult.init, ScenarioResult.set_scope, ScenarioResult.set_started_at,
      hmap, hbs]
  · intro r hr
    simp only [ScenarioResult.init, ScenarioResult.set_scope, ScenarioResult.set_started_at,
      List.nil_append] at hr
    rw [List.dropLast_concat] at hr
    exact hstat r hr
  · refine ⟨badSR, ?_, hbst⟩
    simp only [ScenarioResult.init, ScenarioResult.set_scope, ScenarioResult.set_started_at,
      List.nil_append]
    simp [List.getLast?_concat]
  · rw [hev]
    simp [hcount, List.countP_append, isStepRun]

theorem runner_stops_at_first_failing_step_witness :
    ∃ res s2,
      runner7.run_scenario scnABC ⟨0, []⟩ = ((res, none), s2)
      ∧ res.status = .failed
      ∧ res.step_results.length = 1 + 1
      ∧ res.step_results.map StepResult.step = [stepOk] ++ [stepBoom]
      ∧ (∀ r ∈ res.step_results.dropLast, r.status = .passed)
      ∧ (∃ rb, res.step_results.getLast? = some rb ∧ rb.status = .failed)
      ∧ s2.events.countP isStepRun = ([] : List REvent).countP isStepRun + (1 + 1) := by
  have h := runner_stops_at_first_failing_step runner7 ⟨3⟩ (by decide) scnABC
    [stepOk] [stepAfter] stepBoom rfl rfl (by decide) rfl ⟨0, []⟩
  simpa using h

theorem run_scenario_interrupt (runner : Runner) (e : Exc)
    (hm : e.type ∈ runner.interrupt_exceptions) (bad : VirtualStep)
    (hbody : bad.body = .error e) (scn : VirtualScenario) (hskip : scn.skipped = false)
    (pre rest2 : List VirtualStep) (hsteps : scn.steps = pre ++ bad :: rest2)
    (hpre : ∀ st ∈ pre, st.body = .ok ()) (s : RunState) :
    ∃ res s2 badSR,
      runner.run_scenario scn s = ((res, some e), s2)
      ∧ REvent.stepFail badSR ∈ s2.events
      ∧ badSR.step = bad ∧ badSR.status = .failed ∧ badSR.exc_info = some ⟨e.type, e⟩
      ∧ badSR.ended_at.isSome := by
  obtain ⟨added, badSR, s2, evs, heq, hmap, hbs, hbst, hbe, hbe2, hev, hmem⟩ :=
    runStepsLoop_interrupt runner e hm bad hbody pre rest2
      (((ScenarioResult.init scn).set_scope scn.scope).set_started_at s.clock)
      ⟨s.clock + 1,
       s.events ++ [.scenarioRun ((ScenarioResult.init scn).set_scope scn.scope)]⟩ hpre
  have main : runner.run_scenario scn s =
      (({ (((ScenarioResult.init scn).set_scope scn.scope).set_started_at s.clock) with
          step_results :=
            ((((ScenarioResult.init scn).set_scope scn.scope).set_started_at
              s.clock)).step_results ++ added }, some e), s2) := by
    rw [Runner.run_scenario]
    rw [if_neg (by simp [hskip])]
    simp only [fireEvent, tick]
    rw [hsteps, heq]
  refine ⟨_, _, badSR, main, ?_, hbs, hbst, hbe, hbe2⟩
  rw [hev]
  simp [hmem]

theorem run_scenario_quiet (runner : Runner) (scn : VirtualScenario) (s : RunState)
    (h : scn.skipped = true ∨ ∀ st ∈ scn.steps, st.body = .ok ()) :
    (runner.run_scenario scn s).1.2 = none := by
  cases hsk : scn.skipped with
  | true => rw [run_scenario_skipped_eq runner scn s hsk]
  | false =>
    rcases h with h | h
    · rw [hsk] at h; cases h
    · obtain ⟨res, s2, heq, _⟩ := run_scenario_all_ok runner scn s hsk h
      rw [heq]

theorem runLoop_interrupt_general (runner : Runner) (e : Exc)
    (hm : e.type ∈ runner.interrupt_exceptions) (bad : VirtualStep)
    (hbody : bad.body = .error e) (badScn : VirtualScenario)
    (hskip2 : badScn.skipped = false) (pre rest2 : List VirtualStep)
    (hsteps : badScn.steps = pre ++ bad :: rest2)
    (hpre : ∀ st ∈ pre, st.body = .ok ()) (rest : List VirtualScenario)
    (done : List VirtualScenario) :
    ∀ (report : Report) (s : RunState),
      (∀ scn ∈ done, scn.skipped = true ∨ ∀ st ∈ scn.steps, st.body = .ok ()) →
      (runner.runLoop (done ++ badScn :: rest) report s).1 = .error e := by
  induction done with
  | nil =>
    intro report s _
    obtain ⟨res, s2, badSR, heq, _⟩ :=
      run_scenario_interrupt runner e hm bad hbody badScn hskip2 pre rest2 hsteps hpre s
    rw [List.nil_append, Runner.runLoop, heq]
  | cons scn done ih =>
    intro report s hq
    have hquiet := run_scenario_quiet runner scn s (hq scn (by simp))
    rcases hval : runner.run_scenario scn s with ⟨⟨res, raised⟩, s3⟩
    rw [hval] at hquiet
    simp only at hquiet
    subst hquiet
    rw [List.cons_append, Runner.runLoop, hval]
    exact ih (report.add_result res) s3 (fun x hx => hq x (by simp [hx]))

/-- C2 counterexample: with interrupt set {7}, running a quiet scenario and
then one whose step raises exception type 7 makes run itself raise; run does
not return at all, so there is no returned Report holding the completed
first scenario. -/
theorem runner_interrupt_cex :
    (runner7.run [scnQuiet, scnKbd] ⟨0, []⟩).1 = .error ⟨7⟩
    ∧ ((runner7.run [scnQuiet, scnKbd] ⟨0, []⟩).1).toOption = none := by
  have h := runLoop_interrupt_general runner7 ⟨7⟩ (by decide) stepKbd rfl scnKbd rfl
    [stepOk] [] rfl (by decide) [] [scnQuiet] Report.init ⟨0, []⟩ (by decide)
  have h2 : (runner7.run [scnQuiet, scnKbd] ⟨0, []⟩).1 = .error ⟨7⟩ := by
    rw [Runner.run]
    simpa using h
  exact ⟨h2, by rw [h2]; rfl⟩

/-- C2 (amended): a step raising an interrupt-class exception has its result
record the end time, the exception info and the failed status, the
step-failed event fires, and the exception is re-raised out of run_step,
run_scenario and run; run therefore raises instead of returning, so no
Report is returned when a run is interrupted (the partially built report is
discarded with the loop). -/
theorem runner_interrupt_propagates (runner : Runner) (e : Exc)
    (badStep : VirtualStep) (hbody : badStep.body = .error e)
    (hm : e.type ∈ runner.interrupt_exceptions)
    (badScn : VirtualScenario) (hskip2 : badScn.skipped = false)
    (pre rest2 : List VirtualStep) (hsteps : badScn.steps = pre ++ badStep :: rest2)
    (hpre : ∀ st ∈ pre, st.body = .ok ())
    (done rest : List VirtualScenario)
    (hdone : ∀ scn ∈ done, scn.skipped = true ∨ ∀ st ∈ scn.steps, st.body = .ok ()) :
    (∀ s0 : RunState,
        (runner.run_step badStep s0).1.2 = some e
      ∧ (runner.run_step badStep s0).1.1.status = .failed
      ∧ (runner.run_step badStep s0).1.1.exc_info = some ⟨e.type, e⟩
      ∧ (runner.run_step badStep s0).1.1.ended_at.isSome = true
      ∧ REvent.stepFail ((runner.run_step badStep s0).1.1)
          ∈ ((runner.run_step badStep s0).2).events)
  ∧ (∀ s0 : RunState, (runner.run_scenario badScn s0).1.2 = some e)
  ∧ (∀ s0 : RunState, (runner.run (done ++ badScn :: rest) s0).1 = .error e) := by
  refine ⟨?_, ?_, ?_⟩
  · intro s0
    rw [run_step_error_eq runner badStep s0 e hbody]
    refine ⟨by simp [hm], rfl, rfl, rfl, by simp⟩
  · intro s0
    obtain ⟨res, s2, badSR, heq, _⟩ :=
      run_scenario_interrupt runner e hm badStep hbody badScn hskip2 pre rest2 hsteps hpre s0
    rw [heq]
  · intro s0
    rw [Runner.run]
    exact runLoop_interrupt_general runner e hm badStep hbody badScn hskip2 pre rest2
      hsteps hpre rest done Report.init s0 hdone

theorem runner_interrupt_propagates_witness :
    (runner7.run_step stepKbd ⟨0, []⟩).1.2 = some ⟨7⟩
  ∧ (runner7.run_scenario scnKbd ⟨1, []⟩).1.2 = some ⟨7⟩
  ∧ (runner7.run ([scnQuiet] ++ scnKbd :: []) ⟨2, []⟩).1 = .error ⟨7⟩ := by
  have h := runner_interrupt_propagates runner7 ⟨7⟩ stepKbd rfl (by decide) scnKbd rfl
    [stepOk] [] rfl (by decide) [scnQuiet] [] (by decide)
  exact ⟨(h.1 ⟨0, []⟩).1, h.2.1 ⟨1, []⟩, h.2.2 ⟨2, []⟩⟩

theorem foldl_add_step_result_fields (l : List StepResult) : ∀ r : ScenarioResult,
    (l.foldl ScenarioResult.add_step_result r).status = r.status
    ∧ (l.foldl ScenarioResult.add_step_result r).started_at = r.started_at
    ∧ (l.foldl ScenarioResult.add_step_result r).ended_at = r.ended_at := by
  induction l with
  | nil => intro r; exact ⟨rfl, rfl, rfl⟩
  | cons x t ih =>
    intro r
    simpa [ScenarioResult.add_step_result] using ih (r.add_step_result x)

theorem foldl_attach_fields (l : List Artifact) : ∀ r : ScenarioResult,
    (l.foldl ScenarioResult.attach r).status = r.status
    ∧ (l.foldl ScenarioResult.attach r).started_at = r.started_at
    ∧ (l.foldl ScenarioResult.attach r).ended_at = r.ended_at := by
  induction l with
  | nil => intro r; exact ⟨rfl, rfl, rfl⟩
  | cons x t ih =>
    intro r
    simpa [ScenarioResult.attach] using ih (r.attach x)

theorem from_existing_ok (main : ScenarioResult) (rs : List ScenarioResult) (h : rs ≠ []) :
    ∃ a, AggregatedResult.from_existing main rs = .ok a
      ∧ a.toScenarioResult.status = main.status ∧ a.scenario_results = rs := by
  have hl : rs.length > 0 := List.length_pos.mpr h
  unfold AggregatedResult.from_existing
  rw [if_pos hl]
  refine ⟨_, rfl, ?_, rfl⟩
  cases hst : main.status <;>
    cases hsa : main.started_at <;>
    cases hea : main.ended_at <;>
    simp [ScenarioResult.is_passed, ScenarioResult.is_failed, ScenarioResult.is_skipped, hst,
      hsa, hea, ScenarioResult.mark_passed, ScenarioResult.mark_failed,
      ScenarioResult.mark_skipped, ScenarioResult.set_started_at, ScenarioResult.set_ended_at,
      ScenarioResult.set_scope, ScenarioResult.init,
      (foldl_add_step_result_fields main.step_results _).1, (foldl_attach_fields main.artifacts _).1]

theorem passed_failed_partition (rs : List ScenarioResult)
    (hterm : ∀ x ∈ rs, x.is_passed = true ∨ x.is_failed = true) :
    (rs.filter (fun x => x.is_passed)).length + (rs.filter (fun x => x.is_failed)).length
      = rs.length := by
  induction rs with
  | nil => simp
  | cons r rest ih =>
    have hr := hterm r (by simp)
    have hrest := ih (fun x hx => hterm x (by simp [hx]))
    rcases hr with hr | hr
    · have hnf : r.is_failed = false := by
        simp only [ScenarioResult.is_passed, beq_iff_eq] at hr
        simp [ScenarioResult.is_failed, hr]
      simp [List.filter_cons, hr, hnf]
      omega
    · have hnp : r.is_passed = false := by
        simp only [ScenarioResult.is_failed, beq_iff_eq] at hr
        simp [ScenarioResult.is_passed, hr]
      simp [List.filter_cons, hr, hnp]
      omega

/-- C6: on the spec-modelled monotonic aggregation policy, a singleton list
is passed through unchanged, and a list of two or more terminal results
aggregates to an AggregatedResult that is passed exactly when passing results
strictly outnumber failing ones and otherwise is built from the last failing
result. -/
theorem aggregate_results_policy (r : ScenarioResult) (rs : List ScenarioResult)
    (hlen : 2 ≤ rs.length) (hterm : ∀ x ∈ rs, x.is_passed = true ∨ x.is_failed = true) :
    MonotonicScenarioScheduler.aggregate_results [r] = .ok (.single r)
  ∧ ∃ a, MonotonicScenarioScheduler.aggregate_results rs = .ok (.aggregated a)
      ∧ a.scenario_results = rs
      ∧ (a.toScenarioResult.status = .passed ↔
          (rs.filter (fun x => x.is_passed)).length
            > (rs.filter (fun x => x.is_failed)).length)
      ∧ ((rs.filter (fun x => x.is_passed)).length
            ≤ (rs.filter (fun x => x.is_failed)).length →
          ∃ mainr, (rs.filter (fun x => x.is_failed)).getLast? = some mainr
            ∧ AggregatedResult.from_existing mainr rs = .ok a) := by
  refine ⟨rfl, ?_⟩
  have hsum := passed_failed_partition rs hterm
  have hne : rs ≠ [] := by intro hnil; rw [hnil] at hlen; simp at hlen
  obtain ⟨x, rs1, rfl⟩ : ∃ x rs1, rs = x :: rs1 := by
    cases rs with
    | nil => simp at hlen
    | cons x rs1 => exact ⟨x, rs1, rfl⟩
  obtain ⟨y, rs2, rfl⟩ : ∃ y rs2, rs1 = y :: rs2 := by
    cases rs1 with
    | nil => simp at hlen
    | cons y rs2 => exact ⟨y, rs2, rfl⟩
  by_cases hc : ((x :: y :: rs2).filter (fun x => x.is_passed)).length
      > ((x :: y :: rs2).filter (fun x => x.is_failed)).length
  · have hpne : (x :: y :: rs2).filter (fun x => x.is_passed) ≠ [] := by
      intro hempty
      rw [hempty] at hc
      simp at hc
    obtain ⟨m, hm⟩ : ∃ m, ((x :: y :: rs2).filter (fun x => x.is_passed)).getLast? = some m := by
      cases hg : ((x :: y :: rs2).filter (fun x => x.is_passed)).getLast? with
      | none => exact absurd (List.getLast?_eq_none_iff.mp hg) hpne
      | some m => exact ⟨m, rfl⟩
    have hmmem : m ∈ (x :: y :: rs2).filter (fun x => x.is_passed) :=
      List.mem_of_getLast?_eq_some hm
    have hmp : m.status = .passed := by
      have := (List.mem_filter.mp hmmem).2
      simpa [ScenarioResult.is_passed] using this
    obtain ⟨a, ha, hstat, hres⟩ := from_existing_ok m (x :: y :: rs2) hne
    refine ⟨a, ?_, hres, ?_, ?_⟩
    · rw [MonotonicScenarioScheduler.aggregate_results]
      rw [if_pos hc, hm]
      simp [ha, Except.map]
    · rw [hstat, hmp]
      simp [hc]
    · intro hle
      omega
  · have hfne : (x :: y :: rs2).filter (fun x => x.is_failed) ≠ [] := by
      intro hempty
      have hfl : ((x :: y :: rs2).filter (fun x => x.is_failed)).length = 0 := by
        rw [hempty]
        rfl
      omega
    obtain ⟨m, hm⟩ : ∃ m, ((x :: y :: rs2).filter (fun x => x.is_failed)).getLast? = some m := by
      cases hg : ((x :: y :: rs2).filter (fun x => x.is_failed)).getLast? with
      | none => exact absurd (List.getLast?_eq_none_iff.mp hg) hfne
      | some m => exact ⟨m, rfl⟩
    have hmmem : m ∈ (x :: y :: rs2).filter (fun x => x.is_failed) :=
      List.mem_of_getLast?_eq_some hm
    have hmf : m.status = .failed := by
      have := (List.mem_filter.mp hmmem).2
      simpa [ScenarioResult.is_failed] using this
    obtain ⟨a, ha, hstat, hres⟩ := from_existing_ok m (x :: y :: rs2) hne
    refine ⟨a, ?_, hres, ?_, ?_⟩
    · rw [MonotonicScenarioScheduler.aggregate_results]
      rw [if_neg hc, hm]
      simp [ha, Except.map]
    · rw [hstat, hmf]
      simp [hc]
    · intro hle
      exact ⟨m, hm, ha⟩

theorem aggregate_results_policy_witness :
    MonotonicScenarioScheduler.aggregate_results [resFailed] = .ok (.single resFailed)
  ∧ ∃ a, MonotonicScenarioScheduler.aggregate_results [resPassed, resFailed, resPassed]
        = .ok (.aggregated a)
      ∧ a.toScenarioResult.status = .passed := by
  obtain ⟨h1, a, h2, h3, h4, h5⟩ :=
    aggregate_results_policy resFailed [resPassed, resFailed, resPassed] (by decide) (by decide)
  exact ⟨h1, a, h2, h4.mpr (by decide)⟩

theorem checkDeps_ok_iff (cfg : PluginConfig) (available : List PluginConfig) :
    ∀ deps : List ℕ, checkDeps cfg available deps = .ok () ↔
      ∀ dep ∈ deps, ∃ depCfg, available.find? (fun p => p.pid == dep) = some depCfg
        ∧ (cfg.enabled = true → depCfg.enabled = true) := by
  intro deps
  induction deps with
  | nil => simp [checkDeps]
  | cons dep rest ih =>
    rw [checkDeps]
    cases hf : available.find? (fun p => p.pid == dep) with
    | none =>
      simp only [hf]
      constructor
      · intro h; cases h
      · intro h
        obtain ⟨depCfg, hd, _⟩ := h dep (by simp)
        rw [hf] at hd
        cases hd
    | some depCfg =>
      simp only [hf]
      by_cases hc : cfg.enabled = true ∧ depCfg.enabled = false
      · rw [if_pos (by simp [hc.1, hc.2])]
        constructor
        · intro h; cases h
        · intro h
          obtain ⟨depCfg2, hd, himp⟩ := h dep (by simp)
          rw [hf] at hd
          cases hd
          rw [himp hc.1] at hc
          exact absurd hc.2 (by simp)
      · rw [if_neg (by intro hb; simp at hb; exact hc ⟨hb.1, hb.2⟩)]
        rw [ih]
        constructor
        · intro h
          intro d hd
          rcases List.mem_cons.mp hd with rfl | hd
          · refine ⟨depCfg, hf, fun he => ?_⟩
            by_cases hde : depCfg.enabled = true
            · exact hde
            · exact absurd ⟨he, by simpa using hde⟩ hc
          · exact h d hd
        · intro h d hd
          exact h d (by simp [hd])

theorem validate_ok_iff (cfg : PluginConfig) (available : List PluginConfig) (va : Bool) :
    RunCommand.validate_plugin_config cfg available va = .ok () ↔
      cfg.plugin_ok = true
      ∧ (∀ dep ∈ cfg.depends_on, ∃ depCfg,
          available.find? (fun p => p.pid == dep) = some depCfg
          ∧ (cfg.enabled = true → depCfg.enabled = true))
      ∧ (va = true → cfg.attrs_ok = true) := by
  rw [RunCommand.validate_plugin_config]
  by_cases hp : cfg.plugin_ok = true
  · rw [if_neg (by simp [hp])]
    cases hcd : checkDeps cfg available cfg.depends_on with
    | error err =>
      simp only []
      constructor
      · intro h; cases h
      · intro ⟨_, hdeps, _⟩
        rw [(checkDeps_ok_iff cfg available cfg.depends_on).mpr hdeps] at hcd
        cases hcd
    | ok u =>
      cases u
      have hdeps := (checkDeps_ok_iff cfg available cfg.depends_on).mp hcd
      by_cases ha : va = true ∧ cfg.attrs_ok = false
      · rw [if_pos (by simp [ha.1, ha.2])]
        constructor
        · intro h; cases h
        · intro ⟨_, _, hat⟩
          rw [hat ha.1] at ha
          exact absurd ha.2 (by simp)
      · rw [if_neg (by intro hb; simp at hb; exact ha ⟨hb.1, hb.2⟩)]
        simp only [true_iff, iff_true]
        refine ⟨hp, hdeps, fun hv => ?_⟩
        by_cases hat : cfg.attrs_ok = true
        · exact hat
        · exact absurd ⟨hv, by simpa using hat⟩ ha
  · rw [if_pos (by simpa using hp)]
    constructor
    · intro h; cases h
    · intro ⟨h, _, _⟩; exact absurd h hp

theorem collectEnabled_error (available : List PluginConfig) (va : Bool) :
    ∀ (l : List PluginConfig) (cfg : PluginConfig), cfg ∈ l →
      RunCommand.validate_plugin_config cfg available va ≠ .ok () →
      ∃ e, collectEnabled available va l = .error e := by
  intro l
  induction l with
  | nil => intro cfg h; cases h
  | cons head tail ih =>
    intro cfg hmem hval
    cases hv : RunCommand.validate_plugin_config head available va with
    | error e1 => exact ⟨e1, by rw [collectEnabled, hv]⟩
    | ok u =>
      cases u
      rcases List.mem_cons.mp hmem with rfl | hmem
      · exact absurd hv hval
      · obtain ⟨e, he⟩ := ih cfg hmem hval
        exact ⟨e, by rw [collectEnabled, hv, he]⟩

theorem collectEnabled_ok (available : List PluginConfig) (va : Bool) :
    ∀ l : List PluginConfig,
      (∀ cfg ∈ l, RunCommand.validate_plugin_config cfg available va = .ok ()) →
      collectEnabled available va l = .ok (l.filter (fun c => c.enabled)) := by
  intro l
  induction l with
  | nil => intro; rfl
  | cons head tail ih =>
    intro h
    rw [collectEnabled, h head (by simp), ih (fun c hc => h c (by simp [hc]))]
    rw [List.filter_cons]

/-- C8: validating the configured plugins fails (before any plugin is
activated) whenever some config declares a dependency not present among the
configured plugins, or an enabled config depends on a disabled one; when
neither violation exists and the structural checks pass, validation succeeds
and exactly the enabled configs, in declaration order, are activated. -/
theorem plugin_validation (configs : List PluginConfig) (va : Bool) :
    (∀ cfg ∈ configs, ∀ dep ∈ cfg.depends_on,
        configs.find? (fun p => p.pid == dep) = none →
        ∃ e, RunCommand.get_ordered_plugins configs va = .error e)
  ∧ (∀ cfg ∈ configs, ∀ dep ∈ cfg.depends_on, ∀ depCfg,
        cfg.enabled = true →
        configs.find? (fun p => p.pid == dep) = some depCfg →
        depCfg.enabled = false →
        ∃ e, RunCommand.get_ordered_plugins configs va = .error e)
  ∧ ((∀ cfg ∈ configs, cfg.plugin_ok = true ∧ (va = true → cfg.attrs_ok = true)
        ∧ ∀ dep ∈ cfg.depends_on, ∃ depCfg,
            configs.find? (fun p => p.pid == dep) = some depCfg
            ∧ (cfg.enabled = true → depCfg.enabled = true)) →
      RunCommand.get_ordered_plugins configs va
        = .ok (configs.filter (fun c => c.enabled))) := by
  refine ⟨?_, ?_, ?_⟩
  · intro cfg hcfg dep hdep hnone
    apply collectEnabled_error configs va configs cfg hcfg
    intro hok
    obtain ⟨_, hdeps, _⟩ := (validate_ok_iff cfg configs va).mp hok
    obtain ⟨depCfg, hfind, _⟩ := hdeps dep hdep
    rw [hnone] at hfind
    cases hfind
  · intro cfg hcfg dep hdep depCfg hen hfind hdis
    apply collectEnabled_error configs va configs cfg hcfg
    intro hok
    obtain ⟨_, hdeps, _⟩ := (validate_ok_iff cfg configs va).mp hok
    obtain ⟨depCfg2, hfind2, himp⟩ := hdeps dep hdep
    rw [hfind] at hfind2
    cases hfind2
    rw [himp hen] at hdis
    cases hdis
  · intro hall
    apply collectEnabled_ok configs va configs
    intro cfg hcfg
    obtain ⟨hp, hat, hdeps⟩ := hall cfg hcfg
    exact (validate_ok_iff cfg configs va).mpr ⟨hp, hdeps, hat⟩

/-- A well-formed enabled plugin config with no dependencies. -/
def cfgA : PluginConfig := ⟨0, true, [], true, true⟩

/-- A config depending on an id that no configured plugin has. -/
def cfgMissingDep : PluginConfig := ⟨1, true, [9], true, true⟩

/-- A disabled config. -/
def cfgDisabled : PluginConfig := ⟨2, false, [], true, true⟩

/-- An enabled config depending on the disabled one. -/
def cfgOnDisabled : PluginConfig := ⟨3, true, [2], true, true⟩

/-- An enabled config depending on cfgA. -/
def cfgDep : PluginConfig := ⟨4, true, [0], true, true⟩

theorem plugin_validation_witness :
    (∃ e, RunCommand.get_ordered_plugins [cfgA, cfgMissingDep] true = .error e)
  ∧ (∃ e, RunCommand.get_ordered_plugins [cfgDisabled, cfgOnDisabled] true = .error e)
  ∧ RunCommand.get_ordered_plugins [cfgA, cfgDep, cfgDisabled] true
      = .ok ([cfgA, cfgDep, cfgDisabled].filter (fun c => c.enabled)) := by
  refine ⟨?_, ?_, ?_⟩
  · exact (plugin_validation [cfgA, cfgMissingDep] true).1 cfgMissingDep (by simp)
      9 (by simp [cfgMissingDep]) (by rfl)
  · exact (plugin_validation [cfgDisabled, cfgOnDisabled] true).2.1 cfgOnDisabled (by simp)
      2 (by simp [cfgOnDisabled]) cfgDisabled (by rfl) (by rfl) (by rfl)
  · apply (plugin_validation [cfgA, cfgDep, cfgDisabled] true).2.2
    intro cfg hcfg
    simp only [List.mem_cons, List.not_mem_nil, or_false] at hcfg
    rcases hcfg with rfl | rfl | rfl
    · exact ⟨rfl, fun _ => rfl, by simp [cfgA]⟩
    · refine ⟨rfl, fun _ => rfl, ?_⟩
      intro dep hdep
      simp only [cfgDep, List.mem_cons, List.not_mem_nil, or_false] at hdep
      subst hdep
      exact ⟨cfgA, rfl, fun _ => rfl⟩
    · exact ⟨rfl, fun _ => rfl, by simp [cfgDisabled]⟩

theorem flatten_split_single {α β : Type} (f : α → List β) :
    ∀ (l : List α) (k : ℕ) (hk : k < l.length),
      ∃ B C, (l.map f).flatten = B ++ f (l.get ⟨k, hk⟩) ++ C := by
  intro l
  induction l with
  | nil => intro k hk; exact absurd hk (by simp)
  | cons a t ih =>
    intro k hk
    cases k with
    | zero => exact ⟨[], (t.map f).flatten, by simp⟩
    | succ k =>
      obtain ⟨B, C, hBC⟩ := ih k (by simpa using hk)
      exact ⟨f a ++ B, C, by simp [hBC, List.append_assoc]⟩

theorem flatten_split_double {α β : Type} (f : α → List β) :
    ∀ (l : List α) (i j : ℕ) (hij : i < j) (hj : j < l.length),
      ∃ A B C, (l.map f).flatten
        = A ++ f (l.get ⟨i, Nat.lt_trans hij hj⟩) ++ B ++ f (l.get ⟨j, hj⟩) ++ C := by
  intro l
  induction l with
  | nil => intro i j hij hj; exact absurd hj (by simp)
  | cons a t ih =>
    intro i j hij hj
    cases i with
    | zero =>
      cases j with
      | zero => exact absurd hij (by omega)
      | succ j =>
        obtain ⟨B, C, hBC⟩ := flatten_split_single f t j (by simpa using hj)
        exact ⟨[], B, C, by simp [hBC, List.append_assoc]⟩
    | succ i =>
      cases j with
      | zero => exact absurd hij (by omega)
      | succ j =>
        obtain ⟨A, B, C, h⟩ := ih i j (by omega) (by simpa using hj)
        exact ⟨f a ++ A, B, C, by simp [h, List.append_assoc]⟩

/-- C1: fire(event) produces exactly the trace of the handlers registered
for the event type, a sublist of the registration order; an earlier handler
completes before a later handler starts; and the whole trace of a second
fired event follows the whole trace of the first, so each handler of the
first event completes before any handler of the second starts. -/
theorem event_bus_sequential (d : List Handler) (t t2 : ℕ) (i j : ℕ)
    (hij : i < j) (hj : j < (handlersFor d t).length) :
    (∀ x : ℕ, TraceEntry.started x ∈ Dispatcher.fire d t ↔
        x ∈ (handlersFor d t).map Handler.hid)
  ∧ List.Sublist (handlersFor d t) d
  ∧ (∀ h ∈ handlersFor d t, h.event_type = t)
  ∧ (∃ l₁ l₂ l₃, Dispatcher.fire d t =
        l₁ ++ TraceEntry.completed ((handlersFor d t).get ⟨i, Nat.lt_trans hij hj⟩).hid ::
          (l₂ ++ TraceEntry.started ((handlersFor d t).get ⟨j, hj⟩).hid :: l₃))
  ∧ Dispatcher.fireAll d [t, t2] = Dispatcher.fire d t ++ Dispatcher.fire d t2
  ∧ (∀ h ∈ handlersFor d t,
      TraceEntry.completed h.hid ∈ Dispatcher.fire d t
      ∧ TraceEntry.started h.hid ∈ Dispatcher.fire d t) := by
  refine ⟨?_, ?_, ?_, ?_, ?_, ?_⟩
  · intro x
    have hsm : ∀ h : Handler, TraceEntry.started x ∈ runHandler h ↔ x = h.hid := by
      intro h
      simp [runHandler]
    simp only [Dispatcher.fire, List.mem_flatten, List.mem_map]
    constructor
    · rintro ⟨l, ⟨h, hh, rfl⟩, hmem⟩
      rw [hsm] at hmem
      exact ⟨h, hh, hmem.symm⟩
    · rintro ⟨h, hh, rfl⟩
      exact ⟨runHandler h, ⟨h, hh, rfl⟩, by simp [runHandler]⟩
  · exact List.filter_sublist d
  · intro h hh
    simpa using (List.mem_filter.mp hh).2
  · obtain ⟨A, B, C, hABC⟩ := flatten_split_double runHandler (handlersFor d t) i j hij hj
    refine ⟨A ++ TraceEntry.started ((handlersFor d t).get ⟨i, Nat.lt_trans hij hj⟩).hid ::
        (((handlersFor d t).get ⟨i, Nat.lt_trans hij hj⟩).body.map
          (TraceEntry.acted ((handlersFor d t).get ⟨i, Nat.lt_trans hij hj⟩).hid)),
      B,
      (((handlersFor d t).get ⟨j, hj⟩).body.map
          (TraceEntry.acted ((handlersFor d t).get ⟨j, hj⟩).hid))
        ++ TraceEntry.completed ((handlersFor d t).get ⟨j, hj⟩).hid :: C, ?_⟩
    rw [Dispatcher.fire, hABC]
    simp [runHandler, List.append_assoc]
  · simp [Dispatcher.fireAll]
  · intro h hh
    constructor
    · exact List.mem_flatten.mpr ⟨runHandler h, List.mem_map.mpr ⟨h, hh, rfl⟩,
        by simp [runHandler]⟩
    · exact List.mem_flatten.mpr ⟨runHandler h, List.mem_map.mpr ⟨h, hh, rfl⟩,
        by simp [runHandler]⟩

/-- Handler with id 0 listening on event type 5. -/
def hA : Handler := ⟨5, 0, [100]⟩

/-- Handler with id 1 listening on event type 5, registered after hA. -/
def hB : Handler := ⟨5, 1, []⟩

/-- Handler with id 2 listening on event type 6. -/
def hC : Handler := ⟨6, 2, []⟩

/-- A dispatcher with two handlers for event type 5 and one for type 6. -/
def disp : List Handler := [hA, hB, hC]

theorem event_bus_sequential_witness :
    (∃ l₁ l₂ l₃, Dispatcher.fire disp 5 =
        l₁ ++ TraceEntry.completed 0 :: (l₂ ++ TraceEntry.started 1 :: l₃))
  ∧ Dispatcher.fireAll disp [5, 6] = Dispatcher.fire disp 5 ++ Dispatcher.fire disp 6
  ∧ TraceEntry.started 2 ∉ Dispatcher.fire disp 5 := by
  have h := event_bus_sequential disp 5 6 0 1 (by decide) (by decide)
  refine ⟨h.2.2.2.1, h.2.2.2.2.1, ?_⟩
  intro hm
  have := (h.1 2).mp hm
  simp [handlersFor, disp, hA, hB, hC] at this

end Vedro
